import Mathlib

/-!
Verification of the libsodium hashing adapter layer of rosenpass
(src/rosenpass/src/sodium.rs).

The file embeds the Rust module shallowly. The external primitive
crypto_generichash_blake2b (part of libsodium, the wrapped library) is
kept abstract as a structure field. Rust assert failures are modelled by
a dedicated panic constructor; recoverable anyhow errors by an error
constructor carrying the operation tag of the failed step.
-/

namespace RosenpassSodium

/-- Byte sequences, modelled as lists of naturals (bytes are values below 256). -/
abbrev Bytes := List Nat

/-- KEY_SIZE from the source: 32 bytes. -/
def KEY_SIZE : Nat := 32

/-- MAC_SIZE from the source: 16 bytes. -/
def MAC_SIZE : Nat := 16

/-- NOTHING from the source: the empty byte sequence. -/
def NOTHING : Bytes := []

/-- Documented libsodium value of crypto_generichash_blake2b_KEYBYTES_MIN. -/
def crypto_generichash_KEYBYTES_MIN : Nat := 16

/-- Documented libsodium value of crypto_generichash_blake2b_KEYBYTES_MAX. -/
def crypto_generichash_KEYBYTES_MAX : Nat := 64

/-- Documented libsodium value of crypto_generichash_blake2b_BYTES_MIN. -/
def crypto_generichash_BYTES_MIN : Nat := 16

/-- Documented libsodium value of crypto_generichash_blake2b_BYTES_MAX. -/
def crypto_generichash_BYTES_MAX : Nat := 64

/-- Modelled from the spec: xor_into comes from the external
rosenpass_constant_time crate (not among the given sources); the spec treats
it as an assumed-correct black box computing the constant-time bytewise XOR
of two equal-length buffers, writing the result into the first. -/
def xor_into (dst src : Bytes) : Bytes := List.zipWith Nat.xor dst src

/-- Model of the external primitive crypto_generichash_blake2b. A call
receives the output length, the data, and the key pointer (none models the
null pointer; some k models a pointer to the bytes of k — the key length the
C call passes alongside is 0 for none and the length of k otherwise). It
returns a status code and the bytes it leaves in the output buffer; the
primitive never reads the previous contents of the output buffer, so the
model only receives its length. -/
structure Blake2b where
  run : Nat → Bytes → Option Bytes → Int × Bytes

/-- Outcome of an in-place operation. panic models a failed Rust assert;
error carries the operation tag of the failed step together with the final
contents of the caller-supplied output buffer; ok carries the final contents
of that buffer. -/
inductive IntoRes where
  | panic : IntoRes
  | error : String → Bytes → IntoRes
  | ok : Bytes → IntoRes
deriving DecidableEq

/-- Outcome of a value-returning operation: as IntoRes, but errors drop the
scratch buffer, as the Rust Result type does. -/
inductive ValRes (α : Type) where
  | panic : ValRes α
  | error : String → ValRes α
  | ok : α → ValRes α
deriving DecidableEq

/-- Model of the sodium_call macro: a status code greater than -1 is success;
any other status yields an error tagged with the name of the libsodium
function (the source formats a message around exactly this name). -/
def sodium_call (name : String) (status : Int) : ValRes Unit :=
  if status > -1 then .ok () else .error name

/-- Key pointer selection inside blake2b_flexible: a key of length 0 becomes
the null pointer, any other key is passed by pointer. -/
def keyPtrOf (key : Bytes) : Option Bytes :=
  match key.length with
  | 0 => none
  | _ => some key

/-- Lifting of one primitive call (status code and written bytes) through
sodium_call into an in-place outcome. -/
def dispatch (name : String) (r : Int × Bytes) : IntoRes :=
  match sodium_call name r.1 with
  | .ok _ => .ok r.2
  | .error e => .error e r.2
  | .panic => .panic

/-- blake2b_flexible from the source: asserts the libsodium key-length and
output-length ranges, selects the key pointer, and performs one primitive
call wrapped in sodium_call. -/
def blake2b_flexible (p : Blake2b) (out key data : Bytes) : IntoRes :=
  if ¬ (key = [] ∨ (crypto_generichash_KEYBYTES_MIN ≤ key.length ∧
        key.length ≤ crypto_generichash_KEYBYTES_MAX)) then .panic
  else if ¬ (crypto_generichash_BYTES_MIN ≤ out.length ∧
        out.length ≤ crypto_generichash_BYTES_MAX) then .panic
  else dispatch "crypto_generichash_blake2b" (p.run out.length data (keyPtrOf key))

/-- hash_into from the source: asserts a 32-byte output buffer, then calls
blake2b_flexible with the empty key NOTHING. -/
def hash_into (p : Blake2b) (out data : Bytes) : IntoRes :=
  if ¬ (out.length = KEY_SIZE) then .panic
  else blake2b_flexible p out NOTHING data

/-- Conversion from the in-place outcome to the value-returning outcome: the
value-returning wrappers return the filled scratch buffer on success and drop
it on error, as the Rust functions do with their local array. -/
def intoVal : IntoRes → ValRes Bytes
  | .panic => .panic
  | .error e _ => .error e
  | .ok o => .ok o

/-- hash from the source: runs hash_into on a fresh zero-initialized 32-byte
buffer and returns it. -/
def hash (p : Blake2b) (data : Bytes) : ValRes Bytes :=
  intoVal (hash_into p (List.replicate KEY_SIZE 0) data)

/-- mac_into from the source: asserts a 32-byte output buffer and a 32-byte
key, then calls blake2b_flexible. -/
def mac_into (p : Blake2b) (out key data : Bytes) : IntoRes :=
  if ¬ (out.length = KEY_SIZE) then .panic
  else if ¬ (key.length = KEY_SIZE) then .panic
  else blake2b_flexible p out key data

/-- mac from the source: runs mac_into on a fresh zero-initialized 32-byte
buffer and returns it. -/
def mac (p : Blake2b) (key data : Bytes) : ValRes Bytes :=
  intoVal (mac_into p (List.replicate KEY_SIZE 0) key data)

/-- mac16 from the source: asserts a 32-byte key, then calls blake2b_flexible
directly on a fresh zero-initialized 16-byte buffer and returns it. -/
def mac16 (p : Blake2b) (key data : Bytes) : ValRes Bytes :=
  if ¬ (key.length = KEY_SIZE) then .panic
  else intoVal (blake2b_flexible p (List.replicate 16 0) key data)

/-- IPAD from the source: 32 bytes of 0x36. -/
def IPAD : Bytes := List.replicate KEY_SIZE 0x36

/-- OPAD from the source: 32 bytes of 0x5C. -/
def OPAD : Bytes := List.replicate KEY_SIZE 0x5C

/-- hmac_into from the source: checks the key size with ensure (a recoverable
error tagged with the checked condition, not an assert), computes the inner
tag with mac over the IPAD-xored key, then writes the outer tag into the
output buffer with mac_into over the OPAD-xored key. The source copies the
key into a temporary before each XOR, which at key length 32 is exactly the
bytewise XOR of the key with the pad. -/
def hmac_into (p : Blake2b) (out key data : Bytes) : IntoRes :=
  if ¬ (key.length = KEY_SIZE) then .error "key.len() == KEY_SIZE" out
  else
    match mac p (xor_into key IPAD) data with
    | .ok outer_data => mac_into p out (xor_into key OPAD) outer_data
    | .error e => .error e out
    | .panic => .panic

/-- hmac from the source: runs hmac_into on a fresh zero-initialized 32-byte
buffer and returns it. -/
def hmac (p : Blake2b) (key data : Bytes) : ValRes Bytes :=
  intoVal (hmac_into p (List.replicate KEY_SIZE 0) key data)

/-- Concrete executable instance of the primitive, used for witnesses. Its
output depends on the requested output length (as blake2b does) and it
distinguishes a null key pointer from a pointer to an empty key. -/
def toyPrim : Blake2b :=
  ⟨fun outLen data kptr =>
    let kb : Bytes := match kptr with
      | none => [999]
      | some k => k
    let mix := data.foldl (fun a b => a + b) 7 +
               kb.foldl (fun a b => a * 2 + b + 1) 3 + outLen
    (0, (List.range outLen).map (fun i => (mix + i) % 256))⟩

/-- Concrete instance of the primitive whose every call fails with status -1
after scribbling over the output buffer, used for error-path witnesses. -/
def failPrim : Blake2b :=
  ⟨fun outLen _ _ => (-1, List.replicate outLen 7)⟩

/-- Test key from the spec test vector: 32 bytes of 0x0B. -/
def tKey : Bytes := List.replicate 32 11

/-- Test data from the spec test vector: the ASCII bytes of the word test. -/
def tData : Bytes := [116, 101, 115, 116]

/-- Truncation of a value-returning outcome to its first 16 bytes. -/
def truncate16 : ValRes Bytes → ValRes Bytes
  | .panic => .panic
  | .error e => .error e
  | .ok o => .ok (List.take 16 o)

theorem dispatch_ne_panic (name : String) (r : Int × Bytes) :
    dispatch name r ≠ IntoRes.panic := by
  unfold dispatch sodium_call
  by_cases h : r.1 > -1 <;> simp [h]

theorem keyPtrOf_zero (key : Bytes) (h : key.length = 0) : keyPtrOf key = none := by
  simp [keyPtrOf, h]

theorem keyPtrOf_pos (key : Bytes) (h : key.length ≠ 0) : keyPtrOf key = some key := by
  unfold keyPtrOf
  cases hl : key.length with
  | zero => exact absurd hl h
  | succ n => simp

theorem blake2b_flexible_out_len (p : Blake2b) (out out' key data : Bytes)
    (h : out.length = out'.length) :
    blake2b_flexible p out key data = blake2b_flexible p out' key data := by
  unfold blake2b_flexible
  rw [h]

theorem intoVal_ok (x : IntoRes) (r : Bytes) :
    intoVal x = ValRes.ok r ↔ x = IntoRes.ok r := by
  cases x <;> simp [intoVal]

theorem mac_into_eq (p : Blake2b) (out key data : Bytes) (h : out.length = KEY_SIZE) :
    mac_into p out key data = mac_into p (List.replicate KEY_SIZE 0) key data := by
  have hb := blake2b_flexible_out_len p out (List.replicate KEY_SIZE 0) key data
    (by simp [h])
  simp [mac_into, h, hb]

theorem mac_into_ok_iff (p : Blake2b) (out key data : Bytes)
    (h : out.length = KEY_SIZE) (r : Bytes) :
    mac_into p out key data = IntoRes.ok r ↔ mac p key data = ValRes.ok r := by
  rw [mac_into_eq p out key data h]
  unfold mac
  rw [intoVal_ok]

/-- Concrete value of hmac on the toy primitive at the spec test vector,
used by the witness for the HMAC pipeline theorem. -/
def hmacTv : Bytes := (List.range 32).map (fun i => 223 + i)

/-- C1: for every 32-byte key and every data, hmac_into computes exactly the
pipeline of section 4.4: the inner key is the key XORed with IPAD (32 bytes
of 0x36), the outer data is the 32-byte tag mac(inner key, data), the outer
key is the key XORed with OPAD (32 bytes of 0x5C), and the value written to
the output buffer is mac(outer key, outer data); the padded keys stay 32
bytes long, so no block-size padding step occurs. -/
theorem C1_hmac_pipeline (p : Blake2b) (out key data : Bytes)
    (hk : key.length = KEY_SIZE) (hout : out.length = KEY_SIZE) :
    (xor_into key IPAD).length = KEY_SIZE ∧
    (xor_into key OPAD).length = KEY_SIZE ∧
    ∀ res, (hmac_into p out key data = IntoRes.ok res ↔
      ∃ od, mac p (xor_into key IPAD) data = ValRes.ok od ∧
            mac p (xor_into key OPAD) od = ValRes.ok res) := by
  refine ⟨?_, ?_, ?_⟩
  · simp [xor_into, IPAD, hk]
  · simp [xor_into, OPAD, hk]
  · intro res
    unfold hmac_into
    rw [if_neg (not_not_intro hk)]
    cases hmc : mac p (xor_into key IPAD) data with
    | ok od =>
        rw [mac_into_ok_iff p out _ _ hout res]
        constructor
        · intro hr
          exact ⟨od, rfl, hr⟩
        · rintro ⟨od', hod', hr⟩
          cases hod'
          exact hr
    | error e => simp
    | panic => simp

/-- C1 witness: the pipeline characterization instantiated on the toy
primitive at the spec test vector with the computed output value. -/
theorem C1_hmac_pipeline_witness :
    hmac_into toyPrim (List.replicate 32 0) tKey tData = IntoRes.ok hmacTv ↔
      ∃ od, mac toyPrim (xor_into tKey IPAD) tData = ValRes.ok od ∧
            mac toyPrim (xor_into tKey OPAD) od = ValRes.ok hmacTv :=
  (C1_hmac_pipeline toyPrim (List.replicate 32 0) tKey tData (by decide)
    (by decide)).2.2 hmacTv

/-- C2 counterexample: the claim says every key length in 0..=64 and every
output length in 1..=64 passes the checked preconditions, but a key of
length 1 (with a valid 32-byte output) fails the key assertion, and an
output of length 1 (with an empty key) fails the output assertion. -/
theorem C2_counterexample :
    blake2b_flexible toyPrim (List.replicate 32 0) [0] [] = IntoRes.panic ∧
    blake2b_flexible toyPrim [0] [] [] = IntoRes.panic := by decide

/-- C2 (amended): the adapter accepts exactly key lengths 0 or 16..=64 and
output lengths 16..=64 (the libsodium minima are 16, not 1): within these
ranges the assertions pass and the call is dispatched without panic, and
outside them the call panics. -/
theorem C2_adapter_ranges (p : Blake2b) (out key data : Bytes) :
    blake2b_flexible p out key data ≠ IntoRes.panic ↔
      ((key = [] ∨ (crypto_generichash_KEYBYTES_MIN ≤ key.length ∧
          key.length ≤ crypto_generichash_KEYBYTES_MAX)) ∧
       crypto_generichash_BYTES_MIN ≤ out.length ∧
       out.length ≤ crypto_generichash_BYTES_MAX) := by
  unfold blake2b_flexible
  by_cases h1 : key = [] ∨ (crypto_generichash_KEYBYTES_MIN ≤ key.length ∧
      key.length ≤ crypto_generichash_KEYBYTES_MAX)
  · by_cases h2 : crypto_generichash_BYTES_MIN ≤ out.length ∧
        out.length ≤ crypto_generichash_BYTES_MAX
    · simp [h1, h2, dispatch_ne_panic]
    · simp [h1, h2]
  · simp [h1]

/-- C3: when the assertions pass, blake2b_flexible performs exactly one
primitive call whose key pointer is keyPtrOf key, and keyPtrOf maps a
zero-length key to the true null pointer (never to a pointer to an empty
buffer) and any non-empty key to the pointer to its bytes. -/
theorem C3_null_key (p : Blake2b) (out key data : Bytes)
    (hkey : key = [] ∨ (crypto_generichash_KEYBYTES_MIN ≤ key.length ∧
      key.length ≤ crypto_generichash_KEYBYTES_MAX))
    (ho1 : crypto_generichash_BYTES_MIN ≤ out.length)
    (ho2 : out.length ≤ crypto_generichash_BYTES_MAX) :
    blake2b_flexible p out key data =
      dispatch "crypto_generichash_blake2b" (p.run out.length data (keyPtrOf key)) ∧
    (key.length = 0 → keyPtrOf key = none) ∧
    (key.length ≠ 0 → keyPtrOf key = some key) := by
  refine ⟨?_, keyPtrOf_zero key, keyPtrOf_pos key⟩
  unfold blake2b_flexible
  rw [if_neg (not_not_intro hkey), if_neg (not_not_intro ⟨ho1, ho2⟩)]

/-- C3 witness: the dispatch equation instantiated at the empty key on the
toy primitive. -/
theorem C3_null_key_witness :
    blake2b_flexible toyPrim (List.replicate 32 0) [] [4] =
      dispatch "crypto_generichash_blake2b"
        (toyPrim.run (List.replicate 32 0).length [4] (keyPtrOf [])) ∧
    (([] : Bytes).length = 0 → keyPtrOf ([] : Bytes) = none) ∧
    (([] : Bytes).length ≠ 0 → keyPtrOf ([] : Bytes) = some []) :=
  C3_null_key toyPrim (List.replicate 32 0) [] [4] (Or.inl rfl)
    (by decide) (by decide)

/-- C4: mac16 on a 32-byte key is one direct primitive call requesting a
16-byte output over the key and data, and it is not the truncation of the
32-byte tag: on the concrete toy primitive (whose output depends on the
requested length, as blake2b does) mac16 differs from the first 16 bytes of
mac. -/
theorem C4_mac16_direct (p : Blake2b) (key data : Bytes)
    (hk : key.length = KEY_SIZE) :
    mac16 p key data =
      intoVal (dispatch "crypto_generichash_blake2b" (p.run 16 data (some key))) ∧
    mac16 toyPrim tKey tData ≠ truncate16 (mac toyPrim tKey tData) := by
  constructor
  · unfold mac16
    rw [if_neg (not_not_intro hk)]
    unfold blake2b_flexible
    rw [if_neg (not_not_intro (Or.inr (by rw [hk]; decide))),
      if_neg (not_not_intro (by decide)),
      keyPtrOf_pos key (by rw [hk]; decide)]
    simp
  · decide

/-- C4 witness: the direct-call equation instantiated on the toy primitive
at the spec test vector. -/
theorem C4_mac16_direct_witness :
    mac16 toyPrim tKey tData =
      intoVal (dispatch "crypto_generichash_blake2b"
        (toyPrim.run 16 tData (some tKey))) ∧
    mac16 toyPrim tKey tData ≠ truncate16 (mac toyPrim tKey tData) :=
  C4_mac16_direct toyPrim tKey tData (by decide)

/-- C5: for every key whose length is not 32 bytes, hmac_into and hmac
return the recoverable size-mismatch error produced by the ensure check (the
error tag is the checked condition), leaving the output buffer untouched;
they do not panic. -/
theorem C5_hmac_key_error (p : Blake2b) (out key data : Bytes)
    (hk : key.length ≠ KEY_SIZE) :
    hmac_into p out key data = IntoRes.error "key.len() == KEY_SIZE" out ∧
    hmac p key data = ValRes.error "key.len() == KEY_SIZE" := by
  have h1 : hmac_into p out key data = IntoRes.error "key.len() == KEY_SIZE" out := by
    unfold hmac_into
    rw [if_pos hk]
  have h2 : hmac_into p (List.replicate KEY_SIZE 0) key data =
      IntoRes.error "key.len() == KEY_SIZE" (List.replicate KEY_SIZE 0) := by
    unfold hmac_into
    rw [if_pos hk]
  refine ⟨h1, ?_⟩
  unfold hmac
  rw [h2]
  rfl

/-- C5 witness: a 2-byte key produces the size-mismatch error from both
variants on the toy primitive. -/
theorem C5_hmac_key_error_witness :
    hmac_into toyPrim [0] [1, 2] [3] = IntoRes.error "key.len() == KEY_SIZE" [0] ∧
    hmac toyPrim [1, 2] [3] = ValRes.error "key.len() == KEY_SIZE" :=
  C5_hmac_key_error toyPrim [0] [1, 2] [3] (by decide)

/-- C6: an output buffer whose length is not 32 makes hash_into and mac_into
panic by assertion, and a key whose length is not 32 makes mac_into, mac and
mac16 panic by assertion; none of these returns a recoverable error value. -/
theorem C6_size_assertions (p : Blake2b) (out key data : Bytes) :
    (out.length ≠ KEY_SIZE →
      hash_into p out data = IntoRes.panic ∧ mac_into p out key data = IntoRes.panic) ∧
    (key.length ≠ KEY_SIZE →
      mac_into p out key data = IntoRes.panic ∧
      mac p key data = ValRes.panic ∧ mac16 p key data = ValRes.panic) := by
  constructor
  · intro h
    constructor
    · unfold hash_into
      rw [if_pos h]
    · unfold mac_into
      rw [if_pos h]
  · intro h
    refine ⟨?_, ?_, ?_⟩
    · unfold mac_into
      by_cases ho : out.length = KEY_SIZE
      · rw [if_neg (not_not_intro ho), if_pos h]
      · rw [if_pos ho]
    · unfold mac mac_into
      rw [if_neg (not_not_intro (by decide)), if_pos h]
      rfl
    · unfold mac16
      rw [if_pos h]

/-- C6 witness: a 31-byte output buffer and a 1-byte key panic on the toy
primitive. -/
theorem C6_size_assertions_witness :
    hash_into toyPrim (List.replicate 31 0) [] = IntoRes.panic ∧
    mac16 toyPrim [1] [] = ValRes.panic :=
  ⟨((C6_size_assertions toyPrim (List.replicate 31 0) [1] []).1 (by decide)).1,
   ((C6_size_assertions toyPrim (List.replicate 31 0) [1] []).2 (by decide)).2.2⟩

theorem mac_fail (p : Blake2b) (hp : ∀ n d k, (p.run n d k).1 < 0)
    (key data : Bytes) (hk : key.length = KEY_SIZE) :
    mac p key data = ValRes.error "crypto_generichash_blake2b" := by
  have hs : ¬ ((p.run KEY_SIZE data (keyPtrOf key)).1 > -1) := by
    have := hp KEY_SIZE data (keyPtrOf key)
    omega
  unfold mac mac_into blake2b_flexible
  rw [if_neg (not_not_intro (by decide)), if_neg (not_not_intro hk),
    if_neg (not_not_intro (Or.inr (by rw [hk]; decide))),
    if_neg (not_not_intro (by decide))]
  simp only [List.length_replicate]
  unfold dispatch sodium_call
  rw [if_neg hs]
  rfl

/-- C7: a status code greater than -1 from the primitive is success and any
status below 0 is a typed error named after the failed primitive operation;
when the primitive fails, every public operation (hash, hash_into, mac,
mac_into, mac16, hmac, hmac_into) surfaces that error as a recoverable
error value carrying the primitive operation name, with a single
(unretried) primitive call behind each blake2b_flexible invocation. -/
theorem C7_status_and_propagation :
    (∀ (name : String) (status : Int),
       (sodium_call name status = ValRes.ok () ↔ status > -1) ∧
       (sodium_call name status = ValRes.error name ↔ status < 0)) ∧
    (∀ p : Blake2b, (∀ n d k, (p.run n d k).1 < 0) →
      ∀ out key data : Bytes, out.length = KEY_SIZE → key.length = KEY_SIZE →
        hash p data = ValRes.error "crypto_generichash_blake2b" ∧
        hash_into p out data =
          IntoRes.error "crypto_generichash_blake2b" (p.run out.length data none).2 ∧
        mac p key data = ValRes.error "crypto_generichash_blake2b" ∧
        mac_into p out key data =
          IntoRes.error "crypto_generichash_blake2b" (p.run out.length data (some key)).2 ∧
        mac16 p key data = ValRes.error "crypto_generichash_blake2b" ∧
        hmac p key data = ValRes.error "crypto_generichash_blake2b" ∧
        hmac_into p out key data = IntoRes.error "crypto_generichash_blake2b" out) := by
  constructor
  · intro name status
    unfold sodium_call
    constructor
    · by_cases h : status > -1 <;> simp [h]
    · by_cases h : status > -1 <;> simp [h] <;> omega
  · intro p hp out key data hout hk
    have hblake : ∀ out' key' data' : Bytes,
        (key' = [] ∨ (crypto_generichash_KEYBYTES_MIN ≤ key'.length ∧
          key'.length ≤ crypto_generichash_KEYBYTES_MAX)) →
        crypto_generichash_BYTES_MIN ≤ out'.length →
        out'.length ≤ crypto_generichash_BYTES_MAX →
        blake2b_flexible p out' key' data' =
          IntoRes.error "crypto_generichash_blake2b"
            (p.run out'.length data' (keyPtrOf key')).2 := by
      intro out' key' data' hkey ho1 ho2
      have hs : ¬ ((p.run out'.length data' (keyPtrOf key')).1 > -1) := by
        have := hp out'.length data' (keyPtrOf key')
        omega
      unfold blake2b_flexible
      rw [if_neg (not_not_intro hkey), if_neg (not_not_intro ⟨ho1, ho2⟩)]
      unfold dispatch sodium_call
      rw [if_neg hs]
    have hkrange : key = [] ∨ (crypto_generichash_KEYBYTES_MIN ≤ key.length ∧
        key.length ≤ crypto_generichash_KEYBYTES_MAX) :=
      Or.inr (by rw [hk]; decide)
    have horange1 : crypto_generichash_BYTES_MIN ≤ out.length := by rw [hout]; decide
    have horange2 : out.length ≤ crypto_generichash_BYTES_MAX := by rw [hout]; decide
    have hhi : hash_into p out data =
        IntoRes.error "crypto_generichash_blake2b" (p.run out.length data none).2 := by
      unfold hash_into
      rw [if_neg (not_not_intro hout),
        hblake out NOTHING data (Or.inl rfl) horange1 horange2,
        keyPtrOf_zero NOTHING rfl]
    have hh : hash p data = ValRes.error "crypto_generichash_blake2b" := by
      unfold hash hash_into
      rw [if_neg (not_not_intro (by decide)),
        hblake (List.replicate KEY_SIZE 0) NOTHING data (Or.inl rfl)
          (by decide) (by decide), keyPtrOf_zero NOTHING rfl]
      rfl
    have hmi : mac_into p out key data =
        IntoRes.error "crypto_generichash_blake2b" (p.run out.length data (some key)).2 := by
      unfold mac_into
      rw [if_neg (not_not_intro hout), if_neg (not_not_intro hk),
        hblake out key data hkrange horange1 horange2,
        keyPtrOf_pos key (by rw [hk]; decide)]
    have hm : mac p key data = ValRes.error "crypto_generichash_blake2b" :=
      mac_fail p hp key data hk
    have hm16 : mac16 p key data = ValRes.error "crypto_generichash_blake2b" := by
      unfold mac16
      rw [if_neg (not_not_intro hk),
        hblake (List.replicate 16 0) key data hkrange (by decide) (by decide)]
      rfl
    have hxi : (xor_into key IPAD).length = KEY_SIZE := by
      simp [xor_into, IPAD, hk]
    have hmx : mac p (xor_into key IPAD) data =
        ValRes.error "crypto_generichash_blake2b" :=
      mac_fail p hp (xor_into key IPAD) data hxi
    have hhmi : hmac_into p out key data =
        IntoRes.error "crypto_generichash_blake2b" out := by
      unfold hmac_into
      rw [if_neg (not_not_intro hk), hmx]
    have hhm : hmac p key data = ValRes.error "crypto_generichash_blake2b" := by
      unfold hmac hmac_into
      rw [if_neg (not_not_intro hk), hmx]
      rfl
    exact ⟨hh, hhi, hm, hmi, hm16, hhm, hhmi⟩

/-- C7 witness: on the always-failing primitive, hash and hmac both surface
the typed error naming crypto_generichash_blake2b. -/
theorem C7_status_and_propagation_witness :
    hash failPrim [5] = ValRes.error "crypto_generichash_blake2b" ∧
    hmac failPrim (List.replicate 32 1) [5] =
      ValRes.error "crypto_generichash_blake2b" := by
  have hp : ∀ n d k, (failPrim.run n d k).1 < 0 := fun _ _ _ => by
    show (-1 : Int) < 0
    decide
  have h := C7_status_and_propagation.2 failPrim hp
    (List.replicate 32 0) (List.replicate 32 1) [5] (by decide) (by decide)
  exact ⟨h.1, h.2.2.2.2.2.1⟩

/-- C8: each value-returning variant equals its in-place variant run on a
fresh zero-initialized 32-byte buffer: hash returns exactly the buffer
hash_into fills and hmac returns exactly the buffer hmac_into fills, and the
two variants succeed, error or panic identically on the same inputs. -/
theorem C8_value_vs_inplace (p : Blake2b) (key data : Bytes) :
    hash p data = intoVal (hash_into p (List.replicate KEY_SIZE 0) data) ∧
    hmac p key data = intoVal (hmac_into p (List.replicate KEY_SIZE 0) key data) ∧
    (∀ r, hash p data = ValRes.ok r ↔
      hash_into p (List.replicate KEY_SIZE 0) data = IntoRes.ok r) ∧
    (∀ r, hmac p key data = ValRes.ok r ↔
      hmac_into p (List.replicate KEY_SIZE 0) key data = IntoRes.ok r) := by
  refine ⟨rfl, rfl, fun r => ?_, fun r => ?_⟩
  · unfold hash
    exact intoVal_ok _ r
  · unfold hmac
    exact intoVal_ok _ r

/-- C9: the pad constants satisfy the stated algebra: IPAD is 32 bytes of
0x36, OPAD is 32 bytes of 0x5C, their bytewise XOR is 32 bytes of 0x6A, the
two pads differ, and neither equals the all-zero 32-byte buffer. -/
theorem C9_pad_constants :
    IPAD = List.replicate 32 0x36 ∧ OPAD = List.replicate 32 0x5C ∧
    xor_into IPAD OPAD = List.replicate 32 0x6A ∧
    IPAD ≠ OPAD ∧
    IPAD ≠ List.replicate 32 0 ∧ OPAD ≠ List.replicate 32 0 := by decide

/-- C10: whenever hmac_into fails before its final outer MAC step — because
the key length is not 32, or because the inner MAC over the IPAD-xored key
fails — the caller-supplied output buffer is returned completely unchanged,
since only the final mac_into step ever writes to it. -/
theorem C10_out_unchanged_on_early_error (p : Blake2b) (out key data : Bytes) :
    (key.length ≠ KEY_SIZE →
      hmac_into p out key data = IntoRes.error "key.len() == KEY_SIZE" out) ∧
    (∀ e, key.length = KEY_SIZE →
      mac p (xor_into key IPAD) data = ValRes.error e →
      hmac_into p out key data = IntoRes.error e out) := by
  constructor
  · intro h
    unfold hmac_into
    rw [if_pos h]
  · intro e hk hm
    unfold hmac_into
    rw [if_neg (not_not_intro hk), hm]

/-- C10 witness: with the failing primitive (which scribbles 7s over every
buffer it is handed), an inner MAC failure still leaves the caller buffer
exactly as it was. -/
theorem C10_out_unchanged_on_early_error_witness :
    mac failPrim (xor_into tKey IPAD) tData =
      ValRes.error "crypto_generichash_blake2b" ∧
    hmac_into failPrim [9] tKey tData =
      IntoRes.error "crypto_generichash_blake2b" [9] := by
  have hm : mac failPrim (xor_into tKey IPAD) tData =
      ValRes.error "crypto_generichash_blake2b" := by decide
  exact ⟨hm, (C10_out_unchanged_on_early_error failPrim [9] tKey tData).2
    "crypto_generichash_blake2b" (by decide) hm⟩

end RosenpassSodium
